import Mathlib

/-
  Verification of the PineUI Builder server core (src/server.js).

  Shallow embedding of the Context Resource Cache (getPineUIPrompt),
  the Version Resolver (getPineUIVersion), the Bundle Resolver
  (downloadPineUIBundle), the Remote Fetcher (fetchUrl) and the
  Streaming Relay (the POST /api/generate handler).

  Network, clock and disk effects are passed in explicitly: each
  operation takes the current time, the outcome of any HTTP request it
  would perform, and the relevant piece of process state, and returns
  its result together with the updated state and a flag recording
  whether a network call was made.
-/

namespace PineUIBuilder

/-- JS truthiness of a variable holding either null or a string:
truthy exactly when it is a non-empty string. -/
def truthyStr : Option String → Bool
  | none => false
  | some s => decide (s ≠ "")

/-- const CACHE_TTL = 5 * 60 * 1000 (milliseconds). -/
def CACHE_TTL : Nat := 5 * 60 * 1000

/-- Transport-level outcome of one https.get call: either the
connection errors, or a response arrives with a status code and a
fully accumulated body. -/
inductive HttpOutcome where
  | response (status : Nat) (body : String)
  | netError (msg : String)
deriving DecidableEq

/-- fetchUrl (server.js lines 89-97): rejects on a connection error,
and resolves with the accumulated body once the response ends.  The
response status code is never inspected by the source, so the `status`
field is ignored here, exactly as in the code. -/
def fetchUrl : HttpOutcome → Except String String
  | .netError m => .error m
  | .response _ body => .ok body

/-- The process-wide state read and written by getPineUIPrompt:
the in-memory document (null or a string), its timestamp, and the
contents of the on-disk mirror data/PROMPT.md (none when the file
does not exist). -/
structure CacheState where
  pineUIPrompt : Option String
  pineUIPromptAt : Nat
  promptFile : Option String
deriving DecidableEq

deriving instance DecidableEq for Except

/-- Result of one getPineUIPrompt call: the returned document or the
thrown error, the updated state, and whether fetchUrl was invoked. -/
structure PromptCallResult where
  result : Except String String
  state : CacheState
  fetched : Bool
deriving DecidableEq

/-- getPineUIPrompt (server.js lines 138-167).  Cache hit when the
in-memory copy is truthy and younger than the TTL; otherwise fetch,
and on fetch failure fall back to the stale in-memory copy, then to
the on-disk mirror (stamping it with the current time), and finally
throw.  A successful fetch overwrites both memory and disk. -/
def getPineUIPrompt (s : CacheState) (now : Nat) (http : HttpOutcome) :
    PromptCallResult :=
  let age := now - s.pineUIPromptAt
  if truthyStr s.pineUIPrompt && decide (age < CACHE_TTL) then
    ⟨.ok (s.pineUIPrompt.getD ""), s, false⟩
  else
    match fetchUrl http with
    | .ok fresh =>
        ⟨.ok fresh, ⟨some fresh, now, some fresh⟩, true⟩
    | .error e =>
        if truthyStr s.pineUIPrompt then
          ⟨.ok (s.pineUIPrompt.getD ""), s, true⟩
        else
          match s.promptFile with
          | some content =>
              ⟨.ok content,
               { s with pineUIPrompt := some content, pineUIPromptAt := now },
               true⟩
          | none => ⟨.error ("Cannot load PineUI context: " ++ e), s, true⟩

/-- A sequence of getPineUIPrompt calls, threading the cache state;
each call is given its own time and network outcome. -/
def promptCallSeq (s : CacheState) : List (Nat × HttpOutcome) → List PromptCallResult
  | [] => []
  | (now, http) :: rest =>
      let r := getPineUIPrompt s now http
      r :: promptCallSeq r.state rest

/-- The process-wide state of the Version Resolver: the in-memory
version value (null or a string) and its timestamp. -/
structure VersionState where
  pineUIVersion : Option String
  pineUIVersionAt : Nat
deriving DecidableEq

/-- Outcome of JSON.parse on the registry response body, restricted to
the one field the code reads: parsing may throw, or yield an object
whose version field is absent or a string. -/
inductive ParsedBody where
  | throwOnParse
  | object (version : Option String)
deriving DecidableEq

/-- Result of one getPineUIVersion call: the returned version string,
the updated state, whether fetchUrl was invoked, and whether a bundle
download was triggered fire-and-forget. -/
structure VersionCallResult where
  version : String
  state : VersionState
  fetched : Bool
  bundleTriggered : Bool
deriving DecidableEq

/-- The catch branch of getPineUIVersion (server.js lines 111-114):
log a warning, and set the sentinel "latest" only when no value is
currently held; the timestamp is not updated. -/
def versionCatch (s : VersionState) : VersionCallResult :=
  if truthyStr s.pineUIVersion then
    ⟨s.pineUIVersion.getD "", s, true, false⟩
  else
    ⟨"latest", { s with pineUIVersion := some "latest" }, true, false⟩

/-- getPineUIVersion (server.js lines 99-116).  Cache hit under the
same TTL policy; otherwise fetch the registry document, parse it, and
require a non-empty version field; any failure lands in the catch
branch.  Success stores the value, stamps it, and triggers the bundle
download. -/
def getPineUIVersion (s : VersionState) (now : Nat) (http : HttpOutcome)
    (parsed : ParsedBody) : VersionCallResult :=
  if truthyStr s.pineUIVersion && decide (now - s.pineUIVersionAt < CACHE_TTL) then
    ⟨s.pineUIVersion.getD "", s, false, false⟩
  else
    match fetchUrl http with
    | .error _ => versionCatch s
    | .ok _ =>
        match parsed with
        | .throwOnParse => versionCatch s
        | .object none => versionCatch s
        | .object (some v) =>
            if v = "" then versionCatch s
            else ⟨v, ⟨some v, now⟩, true, true⟩

/-- A registry interaction that ends in the catch branch of
getPineUIVersion: network failure, a body JSON.parse throws on, or a
parsed object whose version field is absent or empty. -/
def registryFails (http : HttpOutcome) (parsed : ParsedBody) : Prop :=
  (∃ e, fetchUrl http = .error e) ∨ parsed = .throwOnParse ∨
    parsed = .object none ∨ parsed = .object (some "")

/-- The local filesystem, as an association list from paths to file
contents; a later write for the same path shadows earlier ones. -/
abbrev Disk : Type := List (String × String)

/-- existsSync. -/
def diskExists (d : Disk) (p : String) : Bool :=
  (List.lookup p d).isSome

/-- writeFileSync. -/
def diskWrite (d : Disk) (p c : String) : Disk :=
  (p, c) :: d

/-- readFileSync. -/
def diskRead (d : Disk) (p : String) : Option String :=
  List.lookup p d

/-- join(PINEUI_DIR, ...) for the script artifact of a version. -/
def jsFilePath (version : String) : String :=
  "public/pineui/pineui-" ++ version ++ ".js"

/-- join(PINEUI_DIR, ...) for the stylesheet artifact of a version. -/
def cssFilePath (version : String) : String :=
  "public/pineui/pineui-" ++ version ++ ".css"

/-- Result of one downloadPineUIBundle call: completion or the raised
error, the updated disk, and whether any download was attempted. -/
structure BundleCallResult where
  result : Except String Unit
  disk : Disk
  downloaded : Bool
deriving DecidableEq

/-- downloadPineUIBundle (server.js lines 118-136).  If both artifact
files exist, return immediately.  Otherwise fetch both artifacts
(Promise.all: the whole call rejects when either fetch rejects, and
the writes after the await never run), then write the script file and
the stylesheet file. -/
def downloadPineUIBundle (version : String) (d : Disk)
    (jsHttp cssHttp : HttpOutcome) : BundleCallResult :=
  let jsFile := jsFilePath version
  let cssFile := cssFilePath version
  let missing := !diskExists d jsFile || !diskExists d cssFile
  if !missing then ⟨.ok (), d, false⟩
  else
    match fetchUrl jsHttp, fetchUrl cssHttp with
    | .ok js, .ok css =>
        ⟨.ok (), diskWrite (diskWrite d jsFile js) cssFile css, true⟩
    | .error e, _ => ⟨.error e, d, true⟩
    | .ok _, .error e => ⟨.error e, d, true⟩

/-- One message of the conversation history carried by a generation
request. -/
structure ChatMessage where
  role : String
  content : String
deriving DecidableEq

/-- The body of a POST /api/generate request: the prompt field may be
absent, and history defaults to empty. -/
structure GenRequest where
  prompt : Option String
  history : List ChatMessage
deriving DecidableEq

/-- One event received from the provider stream: a text fragment
(a content_block_delta chunk carrying a text_delta), or any other
chunk type, which the relay loop ignores. -/
inductive StreamChunk where
  | textDelta (text : String)
  | other
deriving DecidableEq

/-- The text of a fragment chunk, none for ignored chunk types. -/
def chunkText : StreamChunk → Option String
  | .textDelta t => some t
  | .other => none

/-- How one provider streaming session ends: the stream yields its
chunks and completes, or yields some chunks and then raises. -/
inductive ProviderOutcome where
  | completed (chunks : List StreamChunk)
  | failedAfter (chunks : List StreamChunk) (msg : String)
deriving DecidableEq

/-- One outbound server-sent event written by the handler: a content
fragment object, the terminal DONE sentinel, or an error payload. -/
inductive SSEvent where
  | content (text : String)
  | done
  | errored (msg : String)
deriving DecidableEq

/-- Whether an event is one of the two terminal kinds. -/
def isTerminal : SSEvent → Bool
  | .done => true
  | .errored _ => true
  | .content _ => false

/-- The texts of the content events of an outbound stream, in order. -/
def eventTexts (events : List SSEvent) : List String :=
  events.filterMap fun ev =>
    match ev with
    | .content t => some t
    | _ => none

/-- The full text output of a provider session: the concatenation of
its fragments. -/
def providerText (chunks : List StreamChunk) : String :=
  String.join (chunks.filterMap chunkText)

/-- The relay loop (server.js lines 238-243): one content event per
text fragment, in order; other chunk kinds emit nothing. -/
def relayEvents (chunks : List StreamChunk) : List SSEvent :=
  chunks.filterMap fun ch => (chunkText ch).map SSEvent.content

/-- The response of the handler: an early JSON error with an explicit
status code, or a server-sent event stream (HTTP status 200). -/
inductive GenResponse where
  | jsonError (status : Nat) (msg : String)
  | stream (events : List SSEvent)
deriving DecidableEq

/-- The HTTP status of a response; a stream is sent with the default
status 200 (the handler never sets a status before writing). -/
def GenResponse.httpStatus : GenResponse → Nat
  | .jsonError s _ => s
  | .stream _ => 200

/-- String.prototype.trim: strip leading and trailing whitespace. -/
def jsTrim (s : String) : String :=
  String.mk
    (((s.toList.dropWhile Char.isWhitespace).reverse.dropWhile
        Char.isWhitespace).reverse)

/-- The prompt validation of the handler: !prompt?.trim() rejects an
absent prompt and a prompt that trims to the empty string. -/
def promptPresent (req : GenRequest) : Bool :=
  match req.prompt with
  | none => false
  | some p => decide (jsTrim p ≠ "")

/-- The POST /api/generate handler (server.js lines 175-255).
Reject an empty prompt with 400 and a missing API key with 500 before
any remote work.  Then, inside try/catch: obtain the context document
via getPineUIPrompt (its failure is caught and written in-band as an
error event), relay each provider fragment as one content event, and
finish with the DONE sentinel on normal completion or a single error
event when the provider raises mid-stream. -/
def handleGenerate (req : GenRequest) (apiKeySet : Bool) (s : CacheState)
    (now : Nat) (promptHttp : HttpOutcome) (provider : ProviderOutcome) :
    GenResponse × CacheState :=
  if !promptPresent req then (.jsonError 400 "Prompt is required", s)
  else if !apiKeySet then (.jsonError 500 "ANTHROPIC_API_KEY not configured", s)
  else
    let pr := getPineUIPrompt s now promptHttp
    match pr.result with
    | .error e => (.stream [.errored e], pr.state)
    | .ok _ =>
        match provider with
        | .completed chunks =>
            (.stream (relayEvents chunks ++ [.done]), pr.state)
        | .failedAfter chunks msg =>
            (.stream (relayEvents chunks ++ [.errored msg]), pr.state)

/-! ## Helper lemmas -/

/-- A string-or-null variable is truthy exactly when it holds a
non-empty string. -/
theorem truthyStr_eq_true {o : Option String} :
    truthyStr o = true ↔ ∃ p, o = some p ∧ p ≠ "" := by
  cases o <;> simp [truthyStr]

/-- Writing one file affects existence exactly at its own path. -/
theorem diskExists_diskWrite (d : Disk) (p c q : String) :
    diskExists (diskWrite d p c) q = (q == p || diskExists d q) := by
  by_cases h : q = p
  · subst h; simp [diskExists, diskWrite, List.lookup]
  · have hb : (q == p) = false := by simp [h]
    simp [diskExists, diskWrite, List.lookup, hb]

/-- downloadPineUIBundle is a no-op when both artifact files exist. -/
theorem downloadPineUIBundle_noop (v : String) (d : Disk)
    (jsH cssH : HttpOutcome)
    (h1 : diskExists d (jsFilePath v) = true)
    (h2 : diskExists d (cssFilePath v) = true) :
    downloadPineUIBundle v d jsH cssH = ⟨.ok (), d, false⟩ := by
  unfold downloadPineUIBundle
  simp [h1, h2]

/-- A getPineUIPrompt call with a truthy in-memory copy younger than
the TTL is a cache hit: it returns the copy, keeps the state and makes
no network call. -/
theorem prompt_cache_hit (s : CacheState) (now : Nat) (http : HttpOutcome)
    (ht : truthyStr s.pineUIPrompt = true)
    (hage : now - s.pineUIPromptAt < CACHE_TTL) :
    getPineUIPrompt s now http = ⟨.ok (s.pineUIPrompt.getD ""), s, false⟩ := by
  unfold getPineUIPrompt
  simp [ht, hage]

/-- A getPineUIPrompt call that misses the cache and fetches
successfully stores the fresh document in memory and on disk, stamped
with the current time. -/
theorem prompt_fetch_success (s : CacheState) (now : Nat) (http : HttpOutcome)
    (fresh : String)
    (hmiss : (truthyStr s.pineUIPrompt && decide (now - s.pineUIPromptAt < CACHE_TTL)) = false)
    (hok : fetchUrl http = .ok fresh) :
    getPineUIPrompt s now http = ⟨.ok fresh, ⟨some fresh, now, some fresh⟩, true⟩ := by
  unfold getPineUIPrompt
  simp only [hmiss, Bool.false_eq_true, if_false, hok]

/-- Starting from a state holding a non-empty document stamped at time
t, every call in a sequence whose times all lie within the TTL window
of t is a cache hit returning that document. -/
theorem promptCallSeq_hits (p : String) (t : Nat) (f : Option String)
    (hp : p ≠ "") (calls : List (Nat × HttpOutcome))
    (hwin : ∀ c ∈ calls, c.1 - t < CACHE_TTL) :
    ∀ r ∈ promptCallSeq ⟨some p, t, f⟩ calls,
      r.result = .ok p ∧ r.fetched = false := by
  induction calls with
  | nil => intro r hr; simp [promptCallSeq] at hr
  | cons c rest ih =>
      obtain ⟨now, http⟩ := c
      have hhit : getPineUIPrompt ⟨some p, t, f⟩ now http =
          ⟨.ok p, ⟨some p, t, f⟩, false⟩ := by
        have := prompt_cache_hit ⟨some p, t, f⟩ now http
          (truthyStr_eq_true.mpr ⟨p, rfl, hp⟩)
          (hwin (now, http) (List.mem_cons_self _ _))
        simpa using this
      intro r hr
      rw [promptCallSeq] at hr
      simp only [hhit] at hr
      rcases List.mem_cons.mp hr with h | h
      · subst h; exact ⟨rfl, rfl⟩
      · exact ih (fun c hc => hwin c (List.mem_cons_of_mem _ hc)) r h

/-! ## Claims -/

/-- Claim C5: the spec requires fetch(url) to return an error on any
non-2xx HTTP status.  The source never inspects res.statusCode: any
completed response resolves with its body.  At the failing input, a
404 response with body "Not Found" resolves as success, and in general
the body of every completed response is returned as a success value
regardless of status, so a non-2xx body can be stored and served as
document, version, or bundle content.  This records the code bug. -/
theorem c5_fetchUrl_ignores_status :
    fetchUrl (.response 404 "Not Found") = .ok "Not Found" ∧
    ∀ status body, fetchUrl (.response status body) = .ok body :=
  ⟨rfl, fun _ _ => rfl⟩

/-- Claim C7: when both the script file and the stylesheet file for a
version already exist on disk, downloadPineUIBundle returns
immediately, downloads nothing and leaves the disk unchanged; and
after any successful materialization, invoking it again for the same
version is such a no-op. -/
theorem c7_ensureBundle_idempotent (v : String) (d : Disk)
    (jsH cssH : HttpOutcome)
    (h1 : diskExists d (jsFilePath v) = true)
    (h2 : diskExists d (cssFilePath v) = true) :
    downloadPineUIBundle v d jsH cssH = ⟨.ok (), d, false⟩ ∧
    ∀ (d₀ : Disk) (jsH₂ cssH₂ jsH₃ cssH₃ : HttpOutcome) (js css : String),
      fetchUrl jsH₂ = .ok js → fetchUrl cssH₂ = .ok css →
      downloadPineUIBundle v (downloadPineUIBundle v d₀ jsH₂ cssH₂).disk jsH₃ cssH₃ =
        ⟨.ok (), (downloadPineUIBundle v d₀ jsH₂ cssH₂).disk, false⟩ := by
  refine ⟨downloadPineUIBundle_noop v d jsH cssH h1 h2, ?_⟩
  intro d₀ jsH₂ cssH₂ jsH₃ cssH₃ js css hjs hcss
  by_cases hex : diskExists d₀ (jsFilePath v) = true ∧ diskExists d₀ (cssFilePath v) = true
  · rw [downloadPineUIBundle_noop v d₀ jsH₂ cssH₂ hex.1 hex.2]
    exact downloadPineUIBundle_noop v d₀ jsH₃ cssH₃ hex.1 hex.2
  · have hmiss : (!(!diskExists d₀ (jsFilePath v) || !diskExists d₀ (cssFilePath v))) = false := by
      rcases Decidable.not_and_iff_or_not.mp hex with h | h <;>
        simp [Bool.not_eq_true] at h <;> simp [h]
    have hrun : downloadPineUIBundle v d₀ jsH₂ cssH₂ =
        ⟨.ok (), diskWrite (diskWrite d₀ (jsFilePath v) js) (cssFilePath v) css, true⟩ := by
      unfold downloadPineUIBundle
      simp only [hmiss, Bool.false_eq_true, if_false, hjs, hcss]
    rw [hrun]
    apply downloadPineUIBundle_noop
    · simp [diskExists_diskWrite]
    · simp [diskExists_diskWrite]

/-- Claim C8: when the artifact files for a version are not both
present and either artifact download fails, downloadPineUIBundle
fails as a whole and writes nothing: the disk after the call is
exactly the disk before it. -/
theorem c8_failed_download_writes_nothing (v : String) (d : Disk) (jsH cssH : HttpOutcome)
    (hmiss : diskExists d (jsFilePath v) = false ∨ diskExists d (cssFilePath v) = false)
    (hfail : (∃ e, fetchUrl jsH = .error e) ∨ (∃ e, fetchUrl cssH = .error e)) :
    (∃ e, (downloadPineUIBundle v d jsH cssH).result = .error e) ∧
    (downloadPineUIBundle v d jsH cssH).disk = d := by
  have hcond : (!(!diskExists d (jsFilePath v) || !diskExists d (cssFilePath v))) = false := by
    rcases hmiss with h | h <;> simp [h]
  unfold downloadPineUIBundle
  simp only [hcond, Bool.false_eq_true, if_false]
  cases hjs : fetchUrl jsH with
  | error e => exact ⟨⟨e, rfl⟩, rfl⟩
  | ok js =>
      cases hcss : fetchUrl cssH with
      | error e => exact ⟨⟨e, rfl⟩, rfl⟩
      | ok css =>
          exfalso
          rcases hfail with ⟨e, he⟩ | ⟨e, he⟩
          · rw [hjs] at he; cases he
          · rw [hcss] at he; cases he

/-- Claim C7 witness: at a disk already holding both artifact files
for version 1.0.0, the call is a no-op even with the network down. -/
theorem c7_witness :
    downloadPineUIBundle "1.0.0"
        [(jsFilePath "1.0.0", "JS"), (cssFilePath "1.0.0", "CSS")]
        (.netError "down") (.netError "down") =
      ⟨.ok (), [(jsFilePath "1.0.0", "JS"), (cssFilePath "1.0.0", "CSS")], false⟩ :=
  (c7_ensureBundle_idempotent "1.0.0"
      [(jsFilePath "1.0.0", "JS"), (cssFilePath "1.0.0", "CSS")]
      (.netError "down") (.netError "down") (by decide) (by decide)).1

/-- Claim C8 witness: on an empty disk, a failed script download with
a successful stylesheet download fails the call and writes nothing. -/
theorem c8_witness :
    (∃ e, (downloadPineUIBundle "1.0.0" []
        (.netError "down") (.response 200 "CSS")).result = .error e) ∧
    (downloadPineUIBundle "1.0.0" []
        (.netError "down") (.response 200 "CSS")).disk = [] :=
  c8_failed_download_writes_nothing "1.0.0" [] (.netError "down") (.response 200 "CSS")
    (Or.inl (by decide)) (Or.inl ⟨"down", rfl⟩)

/-- Claim C1: when the remote fetch fails, getPineUIPrompt returns
non-empty content without raising whenever a prior successful fetch is
held in memory or a non-empty disk copy of the document exists; it
raises the fatal context-unavailable error only when there is no
in-memory copy and no disk copy (the network being down is the
hypothesis). -/
theorem c1_getDocument_fallback (s : CacheState) (now : Nat) (e : String) :
    ((truthyStr s.pineUIPrompt = true ∨ ∃ d, s.promptFile = some d ∧ d ≠ "") →
      ∃ content, (getPineUIPrompt s now (.netError e)).result = .ok content ∧
        content ≠ "") ∧
    (∀ msg, (getPineUIPrompt s now (.netError e)).result = .error msg →
      truthyStr s.pineUIPrompt = false ∧ s.promptFile = none) := by
  by_cases ht : truthyStr s.pineUIPrompt = true
  · obtain ⟨p, hp, hpne⟩ := truthyStr_eq_true.mp ht
    by_cases hage : now - s.pineUIPromptAt < CACHE_TTL
    · rw [prompt_cache_hit s now _ ht hage]
      refine ⟨fun _ => ⟨p, by simp [hp], hpne⟩, fun msg h => ?_⟩
      simp at h
    · have hrun : getPineUIPrompt s now (.netError e) =
          ⟨.ok (s.pineUIPrompt.getD ""), s, true⟩ := by
        unfold getPineUIPrompt
        simp [ht, hage, fetchUrl]
      rw [hrun]
      refine ⟨fun _ => ⟨p, by simp [hp], hpne⟩, fun msg h => ?_⟩
      simp at h
  · have ht' : truthyStr s.pineUIPrompt = false := by simpa using ht
    cases hf : s.promptFile with
    | some d =>
        have hrun : getPineUIPrompt s now (.netError e) =
            ⟨.ok d, { s with pineUIPrompt := some d, pineUIPromptAt := now }, true⟩ := by
          unfold getPineUIPrompt
          simp [ht', fetchUrl, hf]
        rw [hrun]
        constructor
        · rintro (h | ⟨d', hd', hdne⟩)
          · rw [ht'] at h; cases h
          · injection hd' with hdd
            subst hdd
            exact ⟨d, rfl, hdne⟩
        · intro msg h; simp at h
    | none =>
        have hrun : getPineUIPrompt s now (.netError e) =
            ⟨.error ("Cannot load PineUI context: " ++ e), s, true⟩ := by
          unfold getPineUIPrompt
          simp [ht', fetchUrl, hf]
        rw [hrun]
        constructor
        · rintro (h | ⟨d, hd, _⟩)
          · rw [ht'] at h; cases h
          · cases hd
        · exact fun msg _ => ⟨ht', rfl⟩

/-- Claim C1 witness: a stale non-empty in-memory copy survives a
network failure and is returned without raising. -/
theorem c1_witness :
    ∃ content,
      (getPineUIPrompt ⟨some "doc", 0, none⟩ 400000 (.netError "down")).result =
        .ok content ∧ content ≠ "" :=
  (c1_getDocument_fallback ⟨some "doc", 0, none⟩ 400000 "down").1 (Or.inl (by decide))

/-- Claim C4: after a call that misses the cache and fetches the
document successfully (and the document is non-empty, so the stored
copy is truthy), every subsequent call whose time lies within the
5-minute TTL of the fetch returns the in-memory copy and performs no
network call. -/
theorem c4_ttl_window_no_network (s₀ : CacheState) (now₀ : Nat) (http₀ : HttpOutcome)
    (fresh : String) (calls : List (Nat × HttpOutcome))
    (hmiss : (truthyStr s₀.pineUIPrompt &&
        decide (now₀ - s₀.pineUIPromptAt < CACHE_TTL)) = false)
    (hok : fetchUrl http₀ = .ok fresh) (hne : fresh ≠ "")
    (hwin : ∀ c ∈ calls, c.1 - now₀ < CACHE_TTL) :
    (getPineUIPrompt s₀ now₀ http₀).result = .ok fresh ∧
    ∀ r ∈ promptCallSeq (getPineUIPrompt s₀ now₀ http₀).state calls,
      r.result = .ok fresh ∧ r.fetched = false := by
  rw [prompt_fetch_success s₀ now₀ http₀ fresh hmiss hok]
  exact ⟨rfl, promptCallSeq_hits fresh now₀ (some fresh) hne calls hwin⟩

/-- Claim C4 witness: a cold-start fetch at time 0 followed by two
calls inside the TTL window, both served from memory with the network
down. -/
theorem c4_witness :
    (getPineUIPrompt ⟨none, 0, none⟩ 0 (.response 200 "doc")).result = .ok "doc" ∧
    ∀ r ∈ promptCallSeq (getPineUIPrompt ⟨none, 0, none⟩ 0 (.response 200 "doc")).state
        [(1000, .netError "down"), (250000, .netError "down")],
      r.result = .ok "doc" ∧ r.fetched = false :=
  c4_ttl_window_no_network ⟨none, 0, none⟩ 0 (.response 200 "doc") "doc"
    [(1000, .netError "down"), (250000, .netError "down")]
    (by decide) rfl (by decide) (by decide)

/-- Claim C6 counterexample: at the concrete cold-start state with a
disk copy "doc" and the network down at time 1000, the disk fallback
stamps the copy with time 1000, and the immediately following call at
time 1001 makes no network attempt (fetched = false), contradicting
the claim that the disk-loaded copy is marked unknown/old so that the
next call retries the network. -/
theorem c6_counterexample :
    (getPineUIPrompt ⟨none, 0, some "doc"⟩ 1000 (.netError "down")).state.pineUIPromptAt
      = 1000 ∧
    (getPineUIPrompt
        (getPineUIPrompt ⟨none, 0, some "doc"⟩ 1000 (.netError "down")).state
        1001 (.netError "down")).fetched = false := by decide

/-- Claim C6 (amended): when getPineUIPrompt falls back to a non-empty
on-disk copy, it stamps the loaded copy with the current time, so the
immediately following call within the TTL serves the disk-loaded copy
from memory as fresh and does not attempt a network fetch. -/
theorem c6_disk_fallback_timestamp (s : CacheState) (now now₂ : Nat)
    (e : String) (d : String) (http₂ : HttpOutcome)
    (hmem : truthyStr s.pineUIPrompt = false)
    (hdisk : s.promptFile = some d) (hne : d ≠ "")
    (hwin : now₂ - now < CACHE_TTL) :
    (getPineUIPrompt s now (.netError e)).state.pineUIPromptAt = now ∧
    (getPineUIPrompt s now (.netError e)).result = .ok d ∧
    getPineUIPrompt (getPineUIPrompt s now (.netError e)).state now₂ http₂ =
      ⟨.ok d, (getPineUIPrompt s now (.netError e)).state, false⟩ := by
  have h1 : getPineUIPrompt s now (.netError e) =
      ⟨.ok d, { s with pineUIPrompt := some d, pineUIPromptAt := now }, true⟩ := by
    unfold getPineUIPrompt
    simp [hmem, fetchUrl, hdisk]
  rw [h1]
  refine ⟨rfl, rfl, ?_⟩
  have h2 := prompt_cache_hit { s with pineUIPrompt := some d, pineUIPromptAt := now }
    now₂ http₂ (truthyStr_eq_true.mpr ⟨d, rfl, hne⟩) (by simpa using hwin)
  simpa using h2

/-- Claim C6 (amended) witness: the concrete disk-fallback run at time
1000 followed by a within-TTL call at time 1500 that is served from
memory. -/
theorem c6_amended_witness :
    (getPineUIPrompt ⟨none, 0, some "doc"⟩ 1000 (.netError "down")).state.pineUIPromptAt
      = 1000 ∧
    (getPineUIPrompt ⟨none, 0, some "doc"⟩ 1000 (.netError "down")).result = .ok "doc" ∧
    getPineUIPrompt
        (getPineUIPrompt ⟨none, 0, some "doc"⟩ 1000 (.netError "down")).state
        1500 (.response 200 "fresh") =
      ⟨.ok "doc",
       (getPineUIPrompt ⟨none, 0, some "doc"⟩ 1000 (.netError "down")).state, false⟩ :=
  c6_disk_fallback_timestamp ⟨none, 0, some "doc"⟩ 1000 1500 "down" "doc"
    (.response 200 "fresh") (by decide) rfl (by decide) (by decide)

/-- A registry interaction that fails lands getPineUIVersion in its
catch branch whenever the cache misses. -/
theorem getPineUIVersion_catch_eq (s : VersionState) (now : Nat) (http : HttpOutcome)
    (parsed : ParsedBody)
    (hmiss : (truthyStr s.pineUIVersion &&
        decide (now - s.pineUIVersionAt < CACHE_TTL)) = false)
    (hfail : registryFails http parsed) :
    getPineUIVersion s now http parsed = versionCatch s := by
  unfold getPineUIVersion
  simp only [hmiss, Bool.false_eq_true, if_false]
  rcases hfail with ⟨e, he⟩ | h | h | h
  · rw [he]
  · cases hfu : fetchUrl http with
    | error _ => rfl
    | ok _ => rw [h]
  · cases hfu : fetchUrl http with
    | error _ => rfl
    | ok _ => rw [h]
  · cases hfu : fetchUrl http with
    | error _ => rfl
    | ok _ => rw [h]; simp

/-- Claim C9: getPineUIVersion always returns a string (its result
type carries no error case because the catch branch absorbs every
failure); when the registry interaction fails — network error,
unparsable body, or a missing or empty version field — it returns the
previously resolved value when one is held, and the sentinel
"latest" when none was ever resolved. -/
theorem c9_version_fallback (s : VersionState) (now : Nat) (http : HttpOutcome)
    (parsed : ParsedBody) (hfail : registryFails http parsed) :
    (∀ v, s.pineUIVersion = some v → v ≠ "" →
        (getPineUIVersion s now http parsed).version = v) ∧
    (s.pineUIVersion = none →
        (getPineUIVersion s now http parsed).version = "latest") := by
  by_cases hhit : (truthyStr s.pineUIVersion &&
      decide (now - s.pineUIVersionAt < CACHE_TTL)) = true
  · have hrun : getPineUIVersion s now http parsed =
        ⟨s.pineUIVersion.getD "", s, false, false⟩ := by
      unfold getPineUIVersion; rw [if_pos hhit]
    rw [hrun]
    constructor
    · intro v hv _; simp [hv]
    · intro hv; rw [hv] at hhit; simp [truthyStr] at hhit
  · have hmiss : (truthyStr s.pineUIVersion &&
        decide (now - s.pineUIVersionAt < CACHE_TTL)) = false := by
      simpa using hhit
    rw [getPineUIVersion_catch_eq s now http parsed hmiss hfail]
    unfold versionCatch
    constructor
    · intro v hv hvne
      simp [truthyStr, hv, hvne]
    · intro hv
      have ht : truthyStr s.pineUIVersion = false := by rw [hv]; rfl
      simp [ht]

/-- Claim C9 witness: a stale resolved value 2.3.4 with the registry
unreachable keeps being served. -/
theorem c9_witness :
    (getPineUIVersion ⟨some "2.3.4", 0⟩ 400000 (.netError "down") .throwOnParse).version
      = "2.3.4" :=
  (c9_version_fallback ⟨some "2.3.4", 0⟩ 400000 (.netError "down") .throwOnParse
      (Or.inl ⟨"down", rfl⟩)).1 "2.3.4" rfl (by decide)

/-- eventTexts distributes over appended event streams. -/
theorem eventTexts_append (a b : List SSEvent) :
    eventTexts (a ++ b) = eventTexts a ++ eventTexts b :=
  List.filterMap_append a b _

/-- The texts of the relay of a chunk list are exactly its fragment
texts, in order. -/
theorem eventTexts_relayEvents (chunks : List StreamChunk) :
    eventTexts (relayEvents chunks) = chunks.filterMap chunkText := by
  induction chunks with
  | nil => rfl
  | cons ch rest ih =>
      cases ch with
      | textDelta t =>
          simpa [relayEvents, eventTexts, chunkText, List.filterMap_cons] using ih
      | other =>
          simpa [relayEvents, eventTexts, chunkText, List.filterMap_cons] using ih

/-- The relay of provider fragments contains no terminal event. -/
theorem relayEvents_filter_isTerminal (chunks : List StreamChunk) :
    (relayEvents chunks).filter isTerminal = [] := by
  induction chunks with
  | nil => rfl
  | cons ch rest ih =>
      cases ch with
      | textDelta t =>
          simpa [relayEvents, isTerminal, chunkText, List.filterMap_cons,
            List.filter_cons] using ih
      | other =>
          simpa [relayEvents, chunkText, List.filterMap_cons] using ih

/-- Once the request is validated, the key is set and the context
document resolves, the handler response is determined by the provider
outcome: the relayed fragments followed by DONE on completion, or by
one error event on a mid-stream failure. -/
theorem handleGenerate_stream_of_ctx_ok (req : GenRequest) (s : CacheState)
    (now : Nat) (http : HttpOutcome) (provider : ProviderOutcome) (doc : String)
    (hprompt : promptPresent req = true)
    (hctx : (getPineUIPrompt s now http).result = .ok doc) :
    handleGenerate req true s now http provider =
      (match provider with
       | .completed chunks =>
           (.stream (relayEvents chunks ++ [.done]),
            (getPineUIPrompt s now http).state)
       | .failedAfter chunks msg =>
           (.stream (relayEvents chunks ++ [.errored msg]),
            (getPineUIPrompt s now http).state)) := by
  unfold handleGenerate
  simp [hprompt, hctx]

/-- Claim C2: a session whose provider stream completes normally emits
exactly one content event per text fragment, in the order the provider
produced them; the concatenation of the emitted texts equals the full
provider text output; and exactly one terminal DONE sentinel follows
the last content event. -/
theorem c2_relay_per_fragment (req : GenRequest) (s : CacheState) (now : Nat)
    (http : HttpOutcome) (chunks : List StreamChunk) (doc : String)
    (hprompt : promptPresent req = true)
    (hctx : (getPineUIPrompt s now http).result = .ok doc) :
    ∃ events,
      (handleGenerate req true s now http (.completed chunks)).1 = .stream events ∧
      events = relayEvents chunks ++ [.done] ∧
      eventTexts events = chunks.filterMap chunkText ∧
      String.join (eventTexts events) = providerText chunks ∧
      events.filter isTerminal = [.done] := by
  have htexts : eventTexts (relayEvents chunks ++ [SSEvent.done]) =
      chunks.filterMap chunkText := by
    rw [eventTexts_append, eventTexts_relayEvents]
    simp [eventTexts]
  refine ⟨relayEvents chunks ++ [.done], ?_, rfl, htexts, ?_, ?_⟩
  · rw [handleGenerate_stream_of_ctx_ok req s now http _ doc hprompt hctx]
  · rw [htexts]; rfl
  · rw [List.filter_append, relayEvents_filter_isTerminal]; rfl

/-- Claim C2 witness: three fragments relayed in order with one DONE
sentinel, concatenating to the full provider output. -/
theorem c2_witness :
    ∃ events,
      (handleGenerate ⟨some "build a page", []⟩ true ⟨some "doc", 0, none⟩ 0
          (.netError "offline")
          (.completed [.textDelta "Here ", .textDelta "is ", .textDelta "json"])).1 =
        .stream events ∧
      events = relayEvents [.textDelta "Here ", .textDelta "is ", .textDelta "json"]
          ++ [.done] ∧
      eventTexts events =
        [StreamChunk.textDelta "Here ", .textDelta "is ",
          .textDelta "json"].filterMap chunkText ∧
      String.join (eventTexts events) =
        providerText [.textDelta "Here ", .textDelta "is ", .textDelta "json"] ∧
      events.filter isTerminal = [.done] :=
  c2_relay_per_fragment ⟨some "build a page", []⟩ ⟨some "doc", 0, none⟩ 0
    (.netError "offline") [.textDelta "Here ", .textDelta "is ", .textDelta "json"]
    "doc" (by decide) rfl

/-- Claim C3: per session exactly one terminal event is emitted: on
normal provider completion the events are the relayed fragments
followed by the DONE sentinel and no error event, and on a provider
failure after some fragments they are exactly those content events
followed by one error event and no DONE sentinel. -/
theorem c3_exactly_one_terminal (req : GenRequest) (s : CacheState) (now : Nat)
    (http : HttpOutcome) (doc : String)
    (hprompt : promptPresent req = true)
    (hctx : (getPineUIPrompt s now http).result = .ok doc) :
    (∀ chunks, ∃ events,
        (handleGenerate req true s now http (.completed chunks)).1 = .stream events ∧
        events = relayEvents chunks ++ [.done] ∧
        events.filter isTerminal = [.done]) ∧
    (∀ chunks msg, ∃ events,
        (handleGenerate req true s now http (.failedAfter chunks msg)).1 =
          .stream events ∧
        events = relayEvents chunks ++ [.errored msg] ∧
        events.filter isTerminal = [.errored msg]) := by
  constructor
  · intro chunks
    refine ⟨relayEvents chunks ++ [.done], ?_, rfl, ?_⟩
    · rw [handleGenerate_stream_of_ctx_ok req s now http _ doc hprompt hctx]
    · rw [List.filter_append, relayEvents_filter_isTerminal]; rfl
  · intro chunks msg
    refine ⟨relayEvents chunks ++ [.errored msg], ?_, rfl, ?_⟩
    · rw [handleGenerate_stream_of_ctx_ok req s now http _ doc hprompt hctx]
    · rw [List.filter_append, relayEvents_filter_isTerminal]; rfl

/-- Claim C3 witness: a provider failure after two fragments emits
those two content events and exactly one error event, no DONE. -/
theorem c3_witness :
    ∃ events,
      (handleGenerate ⟨some "build a page", []⟩ true ⟨some "doc", 0, none⟩ 0
          (.netError "offline")
          (.failedAfter [.textDelta "Here ", .textDelta "is "] "overloaded")).1 =
        .stream events ∧
      events = relayEvents [.textDelta "Here ", .textDelta "is "]
          ++ [.errored "overloaded"] ∧
      events.filter isTerminal = [.errored "overloaded"] :=
  (c3_exactly_one_terminal ⟨some "build a page", []⟩ ⟨some "doc", 0, none⟩ 0
      (.netError "offline") "doc" (by decide) rfl).2
    [.textDelta "Here ", .textDelta "is "] "overloaded"

/-- Claim C10: with a non-empty prompt and the API key configured,
when obtaining the context document throws, the handler still responds
with HTTP status 200 and a body consisting of a single in-band error
event of the same shape as a mid-stream provider error, not a JSON
error object with a 4xx or 5xx status. -/
theorem c10_ctx_error_in_band (req : GenRequest) (s : CacheState) (now : Nat)
    (http : HttpOutcome) (provider : ProviderOutcome) (e : String)
    (hprompt : promptPresent req = true)
    (hctx : (getPineUIPrompt s now http).result = .error e) :
    (handleGenerate req true s now http provider).1 = .stream [.errored e] ∧
    ((handleGenerate req true s now http provider).1).httpStatus = 200 := by
  have hrun : handleGenerate req true s now http provider =
      (.stream [.errored e], (getPineUIPrompt s now http).state) := by
    unfold handleGenerate
    simp [hprompt, hctx]
  rw [hrun]
  exact ⟨rfl, rfl⟩

/-- Claim C10 witness: at a cold-start cache with no disk copy and the
network down, the context load throws and the handler answers with
status 200 and a single in-band error event. -/
theorem c10_witness :
    (handleGenerate ⟨some "build a page", []⟩ true ⟨none, 0, none⟩ 0
        (.netError "down") (.completed [])).1 =
      .stream [.errored ("Cannot load PineUI context: " ++ "down")] ∧
    ((handleGenerate ⟨some "build a page", []⟩ true ⟨none, 0, none⟩ 0
        (.netError "down") (.completed [])).1).httpStatus = 200 :=
  c10_ctx_error_in_band ⟨some "build a page", []⟩ ⟨none, 0, none⟩ 0
    (.netError "down") (.completed []) ("Cannot load PineUI context: " ++ "down")
    (by decide) rfl

end PineUIBuilder
